import Mathlib

/-!
Verification of the ForecastBench v2 specification against the code.

Shallow embedding of the parts of the repository that the claims concern:

* the data model (`Question`, `Forecast`, `Resolution`) — the module
  `forecastbench/models.py` is not present in the source tree (only its
  importers are), so the record types are modelled from spec.md §3 together
  with the field accesses made by the code that is present;
* `LLMForecaster.forecast` from `src/forecastbench/forecasters/llm.py`;
* the SQLite storage layer from `src/forecastbench/storage/sqlite.py`
  (tables as Lean lists of row records, SQLAlchemy `merge` as
  replace-or-insert keyed on the composite primary key, `add` as append);
* the dispatch loop `run_forecasts` from `scripts/run_benchmark.py`;
* the stratified sampling engine — the module `forecastbench/sampling.py`
  is absent from the source tree, so it is modelled from spec.md §4.1
  (see `sample_stratified` below);
* `GoodJudgmentSource.fetch_questions` / `fetch_resolution` from
  `src/forecastbench/sources/good_judgment.py`.

Numbers: Python floats carrying probabilities and resolution values are
modelled as rationals; dates and datetimes as integers (day numbers).
External effects (HTTP fetches, LLM calls, the random source) are passed in
as explicit parameters, so every function here is a pure function of its
inputs, exactly as the spec's "pure function of (pool, config, random
state)" reading demands.
-/

namespace ForecastBench

/-- Question type enum, values `binary` / `continuous` / `quantile`. -/
inductive QuestionType
  | binary
  | continuous
  | quantile
deriving DecidableEq

/-- The string stored in the `question_type` column (`QuestionType.value`). -/
def QuestionType.value : QuestionType → String
  | .binary => "binary"
  | .continuous => "continuous"
  | .quantile => "quantile"

/-- `QuestionType(raw)` construction from the stored string; `none` models the
`ValueError` raised on an unrecognised value. -/
def QuestionType.fromValue : String → Option QuestionType
  | "binary" => some .binary
  | "continuous" => some .continuous
  | "quantile" => some .quantile
  | _ => none

/-- Source type enum distinguishing market-origin from data-series questions. -/
inductive SourceType
  | market
  | data
deriving DecidableEq

/-- Modelled from the spec: `forecastbench.models.Question` (models.py is not in
the source tree).  Fields follow spec.md §3 plus the accesses made by
`sqlite.py`, `llm.py` and `good_judgment.py`. -/
structure Question where
  id : String
  source : String
  source_type : SourceType := .market
  text : String := ""
  background : Option String := none
  url : Option String := none
  question_type : QuestionType := .binary
  created_at : Int := 0
  resolution_date : Option Int := none
  category : Option String := none
  resolved : Bool := false
  resolution_value : Option ℚ := none
  base_rate : Option ℚ := none
  value_range : Option (ℚ × ℚ) := none
  quantiles : Option (List ℚ) := none
deriving DecidableEq

/-- Modelled from the spec: `forecastbench.models.Forecast` (models.py is not in
the source tree).  Fields follow spec.md §4.2 plus the constructor calls in
`llm.py` and `run_benchmark.py`. -/
structure Forecast where
  question_id : String
  source : String
  forecaster : String
  probability : Option ℚ := none
  point_estimate : Option ℚ := none
  quantile_values : Option (List ℚ) := none
  reasoning : Option String := none
  question_set_id : Option Nat := none
  created_at : Int := 0
deriving DecidableEq

/-- `Resolution` record from the data model (question_id, source, date, value). -/
structure Resolution where
  question_id : String
  source : String
  date : Int
  value : ℚ
deriving DecidableEq

/-- Python's `s.startswith(p)`. -/
def pyStartsWith (s p : String) : Bool :=
  p.data.isPrefixOf s.data

/-! ### LLM forecaster (`forecasters/llm.py`) -/

/-- A successfully validated structured response: one of
`BinaryForecastResponse`, `ContinuousForecastResponse`,
`QuantileForecastResponse` from `llm.py`.  The schema is selected by
`_build_prompt` from the question type, but nothing below depends on the
match, mirroring the code's `isinstance` dispatch. -/
inductive ParsedResponse
  | binary (probability : ℚ) (reasoning : String)
  | continuous (point_estimate : ℚ) (confidence_low confidence_high : Option ℚ)
      (reasoning : String)
  | quantile (quantile_values : List ℚ) (reasoning : String)
deriving DecidableEq

/-- Outcome of the `try` block of `LLMForecaster.forecast`: either the model
call plus `model_validate_json` succeeded with a parsed response, or some step
raised (network error, malformed output, schema validation failure); `msg` is
`str(e)`. -/
inductive LLMOutcome
  | success (parsed : ParsedResponse)
  | failure (msg : String)
deriving DecidableEq

/-- `LLMForecaster.forecast` (llm.py lines 207-269).  `model` is `self.name`,
`now` the construction time of the returned record, and `outcome` the result
of the `try` block.  The `except` branch returns the default forecast with
`probability = 0.5 if question.question_type == QuestionType.BINARY else None`
and `reasoning = f"Error: {e}"`. -/
def LLMForecaster.forecast (model : String) (now : Int) (question : Question)
    (outcome : LLMOutcome) : Forecast :=
  match outcome with
  | .success (.binary p r) =>
    { question_id := question.id
      source := question.source
      forecaster := model
      probability := some p
      reasoning := some r
      created_at := now }
  | .success (.continuous pe _ _ r) =>
    { question_id := question.id
      source := question.source
      forecaster := model
      point_estimate := some pe
      reasoning := some r
      created_at := now }
  | .success (.quantile qs r) =>
    { question_id := question.id
      source := question.source
      forecaster := model
      quantile_values := some qs
      reasoning := some r
      created_at := now }
  | .failure msg =>
    { question_id := question.id
      source := question.source
      forecaster := model
      probability := if question.question_type = .binary then some (mkRat 1 2) else none
      reasoning := some ("Error: " ++ msg)
      created_at := now }

/-! ### Storage (`storage/sqlite.py`) -/

/-- `QuestionRow` (sqlite.py lines 18-31): composite primary key
`(id, source)`. -/
structure QuestionRow where
  id : String
  source : String
  text : String
  background : Option String
  url : Option String
  question_type : String
  created_at : Int
  resolution_date : Option Int
  category : Option String
  resolved : Bool
  resolution_value : Option ℚ
deriving DecidableEq

/-- `ForecastRow` (sqlite.py lines 34-43): autoincrement surrogate id is
represented by list position.  Note the columns: no `point_estimate`, no
`quantile_values`, no `question_set_id`. -/
structure ForecastRow where
  question_id : String
  source : String
  forecaster : String
  probability : Option ℚ
  created_at : Int
  reasoning : Option String
deriving DecidableEq

/-- `_question_to_row` (sqlite.py lines 83-96). -/
def questionToRow (q : Question) : QuestionRow :=
  { id := q.id
    source := q.source
    text := q.text
    background := q.background
    url := q.url
    question_type := q.question_type.value
    created_at := q.created_at
    resolution_date := q.resolution_date
    category := q.category
    resolved := q.resolved
    resolution_value := q.resolution_value }

/-- `_row_to_question` (sqlite.py lines 98-111): fields not stored in the table
(`source_type`, `base_rate`, `value_range`, `quantiles`) come back as the
model's defaults; `none` models the `ValueError` from `QuestionType(raw)` on an
unrecognised stored string. -/
def rowToQuestion (r : QuestionRow) : Option Question :=
  (QuestionType.fromValue r.question_type).map fun qt =>
    { id := r.id
      source := r.source
      text := r.text
      background := r.background
      url := r.url
      question_type := qt
      created_at := r.created_at
      resolution_date := r.resolution_date
      category := r.category
      resolved := r.resolved
      resolution_value := r.resolution_value }

/-- `_forecast_to_row` (sqlite.py lines 113-121): only the columns of
`ForecastRow` survive; `point_estimate`, `quantile_values` and
`question_set_id` are silently dropped. -/
def forecastToRow (f : Forecast) : ForecastRow :=
  { question_id := f.question_id
    source := f.source
    forecaster := f.forecaster
    probability := f.probability
    created_at := f.created_at
    reasoning := f.reasoning }

/-- `_row_to_forecast` (sqlite.py lines 123-131): the fields absent from the
table come back as the model's defaults. -/
def rowToForecast (r : ForecastRow) : Forecast :=
  { question_id := r.question_id
    source := r.source
    forecaster := r.forecaster
    probability := r.probability
    reasoning := r.reasoning
    created_at := r.created_at }

/-- Does a stored question row have primary key `(i, s)`. -/
def QuestionRow.keyEq (x : QuestionRow) (s i : String) : Bool :=
  x.source == s && x.id == i

/-- SQLAlchemy `session.merge(row)` on the composite primary key: update the
existing row's fields when the key is present, insert otherwise. -/
def mergeQuestionRow (rows : List QuestionRow) (r : QuestionRow) : List QuestionRow :=
  if rows.any (fun x => x.keyEq r.source r.id) then
    rows.map (fun x => if x.keyEq r.source r.id then r else x)
  else rows ++ [r]

/-- `save_question` (sqlite.py lines 149-153). -/
def saveQuestion (rows : List QuestionRow) (q : Question) : List QuestionRow :=
  mergeQuestionRow rows (questionToRow q)

/-- `save_questions` (sqlite.py lines 155-160): merge each in order, one
commit. -/
def saveQuestions (rows : List QuestionRow) (qs : List Question) : List QuestionRow :=
  qs.foldl (fun acc q => mergeQuestionRow acc (questionToRow q)) rows

/-- The rows matched by `get_question`'s `select ... where source = s and
id = i` (sqlite.py lines 162-169). -/
def getQuestionRows (rows : List QuestionRow) (s i : String) : List QuestionRow :=
  rows.filter (fun x => x.keyEq s i)

/-- SQLAlchemy `scalar_one_or_none`: `none` for an empty result, the element
for a singleton, and the `MultipleResultsFound` exception otherwise. -/
def scalarOneOrNone {α : Type} (xs : List α) : Except String (Option α) :=
  match xs with
  | [] => .ok none
  | [x] => .ok (some x)
  | _ => .error "MultipleResultsFound"

/-- `get_question` (sqlite.py lines 162-171); an unrecognised stored
`question_type` string is the `ValueError` raised by `_row_to_question`. -/
def getQuestion (rows : List QuestionRow) (s i : String) : Except String (Option Question) :=
  match scalarOneOrNone (getQuestionRows rows s i) with
  | .error e => .error e
  | .ok none => .ok none
  | .ok (some r) =>
    match rowToQuestion r with
    | some q => .ok (some q)
    | none => .error "ValueError"

/-- The composite keys of the stored question rows. -/
def questionKeys (rows : List QuestionRow) : List (String × String) :=
  rows.map fun r => (r.source, r.id)

/-- `save_forecast` (sqlite.py lines 199-203): `session.add` + commit, a plain
insert of a fresh row. -/
def saveForecast (rows : List ForecastRow) (f : Forecast) : List ForecastRow :=
  rows ++ [forecastToRow f]

/-! ### Forecast dispatch loop (`scripts/run_benchmark.py`) -/

/-- The rebuild in `run_forecasts` (run_benchmark.py lines 198-207): a new
`Forecast` copying every field passed there and attaching `question_set_id`;
`created_at` is not among the copied fields, so it takes the construction-time
default `now`. -/
def rebuildWithSet (f : Forecast) (setId : Nat) (now : Int) : Forecast :=
  { question_id := f.question_id
    source := f.source
    forecaster := f.forecaster
    probability := f.probability
    point_estimate := f.point_estimate
    quantile_values := f.quantile_values
    reasoning := f.reasoning
    question_set_id := some setId
    created_at := now }

/-- The error/success discriminator of the dispatch loop (run_benchmark.py
line 210): `if forecast.reasoning and forecast.reasoning.startswith("Error:")`;
`None` and the empty string are falsy. -/
def isErrorForecast (f : Forecast) : Bool :=
  match f.reasoning with
  | some r => if r == "" then false else pyStartsWith r "Error:"
  | none => false

/-- One model's pass over the question list (run_benchmark.py lines 187-224
inner loop): per question, forecast, rebuild with the set id, persist, and
count successes and errors.  Returns (storage, success_count, error_count).
The forecaster capability never raises past its boundary (spec §4.2), so the
`except` arm of the loop is unreachable and not modelled. -/
def runModelPass (fc : String → Question → Forecast) (setId : Nat) (now : Int)
    (m : String) : List Question → List ForecastRow → List ForecastRow × Nat × Nat
  | [], storage => (storage, 0, 0)
  | q :: rest, storage =>
    let f := fc m q
    let storage2 := saveForecast storage (rebuildWithSet f setId now)
    let r := runModelPass fc setId now m rest storage2
    if isErrorForecast f then (r.1, r.2.1, r.2.2 + 1) else (r.1, r.2.1 + 1, r.2.2)

/-- `run_forecasts` (run_benchmark.py lines 167-226): sequential pass per
model, collecting the per-model success counters in iteration order. -/
def runForecasts (fc : String → Question → Forecast) (setId : Nat) (now : Int)
    (questions : List Question) :
    List String → List ForecastRow → List ForecastRow × List (String × Nat)
  | [], storage => (storage, [])
  | m :: rest, storage =>
    let r := runModelPass fc setId now m questions storage
    let r2 := runForecasts fc setId now questions rest r.1
    (r2.1, (m, r.2.1) :: r2.2)

/-- The forecast rows one full dispatch run appends: one per (model, question)
pair in iteration order. -/
def dispatchRows (fc : String → Question → Forecast) (setId : Nat) (now : Int)
    (questions : List Question) (models : List String) : List ForecastRow :=
  models.flatMap fun m =>
    questions.map fun q => forecastToRow (rebuildWithSet (fc m q) setId now)

/-! ### Sampling engine -/

/-- Python's `round` for a rational `n / d` with `d > 0`: round half to even.
`round(num_questions * market_fraction)` in the spec runs in Python, whose
built-in `round` is banker's rounding. -/
def pyRoundRat (n d : Int) : Int :=
  let f := n.fdiv d
  let r := n - f * d
  if 2 * r < d then f
  else if d < 2 * r then f + 1
  else if f % 2 = 0 then f else f + 1

/-- Modelled from the spec: `forecastbench.sampling.SamplingConfig`
(sampling.py is not in the source tree); fields per spec.md §3. -/
structure SamplingConfig where
  num_questions : Nat
  market_fraction : ℚ
  max_resolution_days : Int
deriving DecidableEq

/-- Modelled from the spec: `SamplingResult` — the selected questions plus
human-readable warning strings (spec.md §3). -/
structure SamplingResult where
  questions : List Question
  warnings : List String
deriving DecidableEq

/-- Horizon eligibility (spec.md §4.1 step 2): `resolution_date` is set and
falls within `[now, now + max_resolution_days]`; a question without a
resolution date is simply ineligible. -/
def eligibleB (now maxDays : Int) (q : Question) : Bool :=
  match q.resolution_date with
  | some d => decide (now ≤ d) && decide (d ≤ now + maxDays)
  | none => false

/-- Stratum partition (spec.md §4.1 step 1). -/
def bySource (st : SourceType) (pool : List Question) : List Question :=
  pool.filter (fun q => q.source_type == st)

/-- The eligible members of one stratum: partition then horizon filter
(spec.md §4.1 steps 1-2). -/
def eligibleStratum (cfg : SamplingConfig) (now : Int) (st : SourceType)
    (pool : List Question) : List Question :=
  (bySource st pool).filter (eligibleB now cfg.max_resolution_days)

/-- How many questions of a stratum are eligible. -/
def eligibleCount (cfg : SamplingConfig) (now : Int) (st : SourceType)
    (pool : List Question) : Nat :=
  (eligibleStratum cfg now st pool).length

/-- `market_target = round(num_questions * market_fraction)` (spec.md §4.1
step 3), as an integer:
`num_questions * market_fraction = (num_questions * f.num) / f.den`. -/
def marketTargetZ (cfg : SamplingConfig) : Int :=
  pyRoundRat ((cfg.num_questions : Int) * cfg.market_fraction.num)
    (cfg.market_fraction.den : Int)

/-- The market stratum's draw size; a negative target is treated as zero
(spec.md §4.1 edge cases). -/
def marketTarget (cfg : SamplingConfig) : Nat :=
  (marketTargetZ cfg).toNat

/-- `data_target = num_questions - market_target` (spec.md §4.1 step 3), with
a negative target treated as zero. -/
def dataTarget (cfg : SamplingConfig) : Nat :=
  ((cfg.num_questions : Int) - marketTargetZ cfg).toNat

/-- The shortfall warning (spec.md §4.1 step 5): names the stratum, the
requested count and the actual available count. -/
def stratumWarning (stratum : String) (requested available : Nat) : String :=
  stratum ++ " stratum: requested " ++ toString requested ++
    ", available " ++ toString available

/-- Modelled from the spec: `QuestionSampler.sample_stratified` (sampling.py is
not in the source tree); algorithm per spec.md §4.1.  The randomized
uniform-without-replacement selection is the injected `draw` function (the
engine consumes the ambient random source; `DrawSpec` below states the two
properties the spec requires of it). -/
def sample_stratified (cfg : SamplingConfig) (now : Int)
    (draw : List Question → Nat → List Question) (pool : List Question) :
    SamplingResult :=
  let marketElig := eligibleStratum cfg now .market pool
  let dataElig := eligibleStratum cfg now .data pool
  let mT := marketTarget cfg
  let dT := dataTarget cfg
  let marketSample := draw marketElig mT
  let dataSample := draw dataElig dT
  let warnings :=
    (if marketElig.length < mT then [stratumWarning "MARKET" mT marketElig.length]
     else []) ++
    (if dataElig.length < dT then [stratumWarning "DATA" dT dataElig.length]
     else [])
  { questions := marketSample ++ dataSample, warnings := warnings }

/-- What spec.md §4.1 step 4 requires of the random selection: a sample of size
`min(target, available)` drawn without replacement from the stratum (thus a
sublist of it).  Uniformity is probabilistic and not formalised. -/
def DrawSpec (draw : List Question → Nat → List Question) : Prop :=
  ∀ xs k, (draw xs k).Sublist xs ∧ (draw xs k).length = min k xs.length

/-- A concrete selection function satisfying `DrawSpec` (one fixed random
state): take the first `k`. -/
def takeDraw (xs : List Question) (k : Nat) : List Question :=
  xs.take k

/-- The `(source, id)` composite identity of a question (spec.md §3). -/
def questionKey (q : Question) : String × String :=
  (q.source, q.id)

/-! ### Good Judgment Open source (`sources/good_judgment.py`) -/

/-- A JSON field value as Python sees it after `response.json()`: a string, a
number, or a boolean.  JSON `null` and an absent key both surface as Python
`None`, modelled by `Option.none` around this type. -/
inductive JVal
  | s (v : String)
  | num (v : ℚ)
  | b (v : Bool)
deriving DecidableEq

/-- Python truthiness of a JSON value: empty string, zero and `False` are
falsy. -/
def JVal.truthy : JVal → Bool
  | .s v => !(v == "")
  | .num v => !(v.num == 0)
  | .b v => v

/-- Truthiness including `None`. -/
def truthyOpt : Option JVal → Bool
  | none => false
  | some v => v.truthy

/-- Python `a or b`: `a` when truthy, else `b`. -/
def pyOr (a b : Option JVal) : Option JVal :=
  if truthyOpt a then a else b

/-- Digits-only parse helper for `float(str)`. -/
def parseDigits : List Char → Option Nat
  | [] => none
  | cs =>
    cs.foldl (fun acc c =>
      acc.bind fun n => if c.isDigit then some (10 * n + (c.toNat - 48)) else none)
      (some 0)

/-- Split a character list at every occurrence of `c`. -/
def splitOnChar (c : Char) : List Char → List (List Char)
  | [] => [[]]
  | x :: xs =>
    let r := splitOnChar c xs
    if x = c then [] :: r
    else
      match r with
      | h :: t => (x :: h) :: t
      | [] => [[x]]

/-- `float(str)` on the common decimal forms `[+|-]digits[.digits]`; exotic
accepted forms (exponents, infinities, surrounding whitespace) are not
modelled and parse as failures. -/
def parseDecimal (s : String) : Option ℚ :=
  let (sign, cs) :=
    match s.data with
    | '-' :: t => ((-1 : Int), t)
    | '+' :: t => ((1 : Int), t)
    | t => ((1 : Int), t)
  match splitOnChar '.' cs with
  | [ip] => (parseDigits ip).map fun n => mkRat (sign * n) 1
  | [ip, fp] =>
    match parseDigits ip, parseDigits fp with
    | some n, some m =>
      some (mkRat (sign * ((n : Int) * (10 : Int) ^ fp.length + m)) (10 ^ fp.length))
    | _, _ => none
  | _ => none

/-- Python `float(x)`: numbers pass through, booleans become 0/1, strings are
parsed, anything else raises (`none` models the caught
`ValueError`/`TypeError`). -/
def pyFloat : JVal → Option ℚ
  | .num v => some v
  | .b v => some (if v then mkRat 1 1 else mkRat 0 1)
  | .s v => parseDecimal v

/-- The fields of one Good Judgment question payload that `fetch_resolution`
reads (`data.get(...)`; `none` is an absent key or JSON null). -/
structure GJData where
  status : Option JVal
  resolution : Option JVal
  crowd_forecast : Option JVal
  community_prediction : Option JVal
deriving DecidableEq

/-- The resolved-branch value chain of `fetch_resolution` (good_judgment.py
lines 172-180): `"yes"` ↦ 1.0, `"no"` ↦ 0.0, any `int`/`float` (including
`bool`, a Python `int` subclass) ↦ `float(resolution)`, otherwise no
recognised value. -/
def resolutionValue : Option JVal → Option ℚ
  | some (.s v) =>
    if v == "yes" then some (mkRat 1 1)
    else if v == "no" then some (mkRat 0 1)
    else none
  | some (.num v) => some v
  | some (.b v) => some (if v then mkRat 1 1 else mkRat 0 1)
  | none => none

/-- `GoodJudgmentSource.fetch_resolution` (good_judgment.py lines 162-202).
`fetched` is the outcome of `_get_question`: `none` models the caught
`httpx.HTTPError`.  `today` is `date.today()`. -/
def GoodJudgment.fetch_resolution (question_id : String) (today : Int)
    (fetched : Option GJData) : Option Resolution :=
  match fetched with
  | none => none
  | some data =>
    if data.status = some (.s "resolved") ∨ data.status = some (.s "closed") then
      match resolutionValue data.resolution with
      | some v => some ⟨question_id, "good_judgment", today, v⟩
      | none => none
    else
      match pyOr data.crowd_forecast data.community_prediction with
      | none => none
      | some cf =>
        match pyFloat cf with
        | some v => some ⟨question_id, "good_judgment", today, v⟩
        | none => none

deriving instance DecidableEq for Except

/-- One page payload of `_get_questions_page` as `fetch_questions` reads it:
the item lists under the `questions` / `data` keys (each item already taken
through `_parse_question`, whose per-question failures are the `.error`
entries), and the page counts under `total_pages` / `pages`. -/
structure PageData where
  questions : Option (List (Except String Question))
  data : Option (List (Except String Question))
  total_pages : Option Nat
  pages : Option Nat
deriving DecidableEq

/-- Python `a or b or []` over two optional lists: an absent key or an empty
list is falsy. -/
def orListDefault {α : Type} (a b : Option (List α)) : List α :=
  match a with
  | some (x :: xs) => x :: xs
  | _ =>
    match b with
    | some (y :: ys) => y :: ys
    | _ => []

/-- Python `a or b or 1` over two optional counts: an absent key or zero is
falsy. -/
def orNatDefault (a b : Option Nat) (d : Nat) : Nat :=
  match a with
  | some n =>
    if n ≠ 0 then n else
      match b with
      | some m => if m ≠ 0 then m else d
      | none => d
  | none =>
    match b with
    | some m => if m ≠ 0 then m else d
    | none => d

/-- The `while True` pagination loop of `fetch_questions` (good_judgment.py
lines 131-160).  `world page` is the outcome of `_get_questions_page(page)`;
`.error` models the caught `httpx.HTTPError`, which `break`s out of the loop
with the questions accumulated so far.  Per-question parse failures are
skipped.  `fuel` bounds the recursion (the Python loop's iteration count is
bounded by the reported `total_pages`). -/
def GoodJudgment.fetchQuestionsLoop (world : Nat → Except String PageData) :
    Nat → Nat → List Question → List Question
  | 0, _, acc => acc
  | fuel + 1, page, acc =>
    match world page with
    | .error _ => acc
    | .ok d =>
      match orListDefault d.questions d.data with
      | [] => acc
      | item :: items =>
        let parsed := (item :: items).filterMap fun it =>
          match it with
          | .ok q => some q
          | .error _ => none
        let acc2 := acc ++ parsed
        let total := orNatDefault d.total_pages d.pages 1
        if total ≤ page then acc2
        else GoodJudgment.fetchQuestionsLoop world fuel (page + 1) acc2

/-- `GoodJudgmentSource.fetch_questions` (good_judgment.py lines 131-160):
start at page 1 with an empty accumulator. -/
def GoodJudgment.fetch_questions (world : Nat → Except String PageData)
    (fuel : Nat) : List Question :=
  GoodJudgment.fetchQuestionsLoop world fuel 1 []

/-- How many stored forecast rows carry a given (forecaster, question) pair —
the persisted-row key of spec §4.2. -/
def rowsFor (rows : List ForecastRow) (m : String) (q : Question) : Nat :=
  (rows.filter fun r =>
    r.forecaster == m && r.source == q.source && r.question_id == q.id).length

/-! ### Concrete test fixtures -/

/-- A binary question. -/
def qBin : Question :=
  { id := "b1", source := "gj", question_type := .binary }

/-- A continuous question. -/
def qCont : Question :=
  { id := "c1", source := "fred", question_type := .continuous }

/-- Market-origin questions resolving 10..40 days out. -/
def qm1 : Question :=
  { id := "m1", source := "gj", source_type := .market, resolution_date := some 10 }

def qm2 : Question :=
  { id := "m2", source := "gj", source_type := .market, resolution_date := some 20 }

def qm3 : Question :=
  { id := "m3", source := "gj", source_type := .market, resolution_date := some 30 }

def qm4 : Question :=
  { id := "m4", source := "gj", source_type := .market, resolution_date := some 40 }

/-- Data-origin questions resolving 10..40 days out. -/
def qd1 : Question :=
  { id := "d1", source := "fred", source_type := .data, resolution_date := some 10 }

def qd2 : Question :=
  { id := "d2", source := "fred", source_type := .data, resolution_date := some 20 }

def qd3 : Question :=
  { id := "d3", source := "fred", source_type := .data, resolution_date := some 30 }

def qd4 : Question :=
  { id := "d4", source := "fred", source_type := .data, resolution_date := some 40 }

/-- A pool with four eligible questions in each stratum. -/
def poolBig : List Question :=
  [qm1, qm2, qm3, qm4, qd1, qd2, qd3, qd4]

/-- 4 questions, half market, one-year horizon (the run_benchmark.py config). -/
def cfgHalf : SamplingConfig :=
  { num_questions := 4, market_fraction := mkRat 1 2, max_resolution_days := 365 }

/-- num_questions = 2, market_fraction = 1. -/
def cfgDup : SamplingConfig :=
  { num_questions := 2, market_fraction := mkRat 1 1, max_resolution_days := 365 }

/-- A pool carrying a duplicated (source, id) pair in the market stratum. -/
def poolDup : List Question :=
  [qm1, qm1, qd1, qd2]

/-- num_questions = 1 with an out-of-range market_fraction of 2. -/
def cfgOverOne : SamplingConfig :=
  { num_questions := 1, market_fraction := mkRat 2 1, max_resolution_days := 365 }

/-- One eligible question per stratum. -/
def poolOverOne : List Question :=
  [qm1, qd1]

/-- num_questions = 2 with market_fraction = 2 (out of range). -/
def cfgShortOver : SamplingConfig :=
  { num_questions := 2, market_fraction := mkRat 2 1, max_resolution_days := 365 }

/-- Three eligible market questions, one data. -/
def poolShortOver : List Question :=
  [qm1, qm2, qm3, qd1]

/-- One eligible market question, two data: spec.md §8's shortfall scenario. -/
def poolShort : List Question :=
  [qm1, qd1, qd2]

/-- num_questions = 0. -/
def cfgZero : SamplingConfig :=
  { num_questions := 0, market_fraction := mkRat 1 2, max_resolution_days := 365 }

/-- A stored question, original version. -/
def qStore1 : Question :=
  { id := "q1", source := "gj", text := "old text" }

/-- Same (source, id), updated fields. -/
def qStore1b : Question :=
  { id := "q1", source := "gj", text := "new text", resolved := true }

/-- A second stored question with a distinct key. -/
def qStore2 : Question :=
  { id := "q2", source := "gj", text := "other" }

/-- A one-row questions table. -/
def rowsW : List QuestionRow :=
  [questionToRow qStore1]

/-- A forecaster whose every forecast reports an internal error, with correct
identifying fields — the always-failing capability of spec §8. -/
def errFc : String → Question → Forecast := fun m q =>
  { question_id := q.id
    source := q.source
    forecaster := m
    probability := some (mkRat 1 2)
    reasoning := some "Error: boom"
    created_at := 0 }

/-- A continuous-question forecast carrying a point estimate, quantiles and a
question-set attachment. -/
def contForecastA : Forecast :=
  { question_id := "c1"
    source := "fred"
    forecaster := "gpt"
    point_estimate := some (mkRat 5 2)
    quantile_values := some [mkRat 1 1, mkRat 2 1]
    reasoning := some "looks fine"
    question_set_id := some 7
    created_at := 0 }

/-- Identical to `contForecastA` except for the fields the forecasts table has
no columns for. -/
def contForecastB : Forecast :=
  { question_id := "c1"
    source := "fred"
    forecaster := "gpt"
    point_estimate := some (mkRat 9 2)
    quantile_values := none
    reasoning := some "looks fine"
    question_set_id := none
    created_at := 0 }

/-- A Good Judgment question. -/
def gjQ1 : Question :=
  { id := "g1", source := "good_judgment" }

/-- Page 1 of a paginated fetch reporting two total pages. -/
def pageOne : PageData :=
  { questions := some [.ok gjQ1], data := none, total_pages := some 2, pages := none }

/-- A fetch world where page 1 succeeds and page 2 onwards fails with an HTTP
error. -/
def worldC9 : Nat → Except String PageData := fun p =>
  if p = 1 then .ok pageOne else .error "connection error"

/-- A fetch world failing from the first request on. -/
def worldFailAll : Nat → Except String PageData := fun _ =>
  .error "boom"

/-- An open question whose crowd forecast is the number 0. -/
def gjOpenZero : GJData :=
  { status := some (.s "open")
    resolution := none
    crowd_forecast := some (.num (mkRat 0 1))
    community_prediction := none }

/-- An open question with crowd forecast 0.7. -/
def gjOpenCrowd : GJData :=
  { status := some (.s "open")
    resolution := none
    crowd_forecast := some (.num (mkRat 7 10))
    community_prediction := none }

/-! ### Helper lemmas -/

theorem pyStartsWith_append (p msg : String) : pyStartsWith (p ++ msg) p = true := by
  simp [pyStartsWith, String.data_append, List.isPrefixOf_iff_prefix]

theorem takeDraw_spec : DrawSpec takeDraw := by
  intro xs k
  exact ⟨List.take_sublist k xs, List.length_take k xs⟩

/-! ### Claim C3: the forecaster error boundary -/

/-- Claim C3: `LLMForecaster.forecast` never raises past its boundary — every
internal failure of the model call / parse / validation is caught and becomes
a returned `Forecast` whose reasoning starts with the literal prefix
`"Error:"`, whose probability is exactly 0.5 for a BINARY question and absent
otherwise, and whose other prediction fields are absent. -/
theorem llm_forecast_error_contract (model : String) (now : Int) (q : Question)
    (o : LLMOutcome) (msg : String) (h : o = .failure msg) :
    (∃ s, (LLMForecaster.forecast model now q o).reasoning = some s ∧
        pyStartsWith s "Error:" = true)
    ∧ (q.question_type = .binary →
        (LLMForecaster.forecast model now q o).probability = some (mkRat 1 2))
    ∧ (q.question_type ≠ .binary →
        (LLMForecaster.forecast model now q o).probability = none)
    ∧ (LLMForecaster.forecast model now q o).point_estimate = none
    ∧ (LLMForecaster.forecast model now q o).quantile_values = none := by
  subst h
  refine ⟨⟨"Error: " ++ msg, rfl, ?_⟩, ?_, ?_, rfl, rfl⟩
  · have h6 : "Error: " = "Error:" ++ " " := rfl
    rw [h6, String.append_assoc]
    exact pyStartsWith_append "Error:" (" " ++ msg)
  · intro hb
    simp [LLMForecaster.forecast, hb]
  · intro hb
    simp [LLMForecaster.forecast, hb]

/-- Witness for C3 at a binary and at a continuous question. -/
theorem llm_forecast_error_contract_witness :
    (∃ s, (LLMForecaster.forecast "gpt" 0 qBin (.failure "boom")).reasoning = some s ∧
        pyStartsWith s "Error:" = true)
    ∧ (LLMForecaster.forecast "gpt" 0 qBin (.failure "boom")).probability
        = some (mkRat 1 2)
    ∧ (LLMForecaster.forecast "gpt" 0 qCont (.failure "boom")).probability = none := by
  have h1 := llm_forecast_error_contract "gpt" 0 qBin (.failure "boom") "boom" rfl
  have h2 := llm_forecast_error_contract "gpt" 0 qCont (.failure "boom") "boom" rfl
  exact ⟨h1.1, h1.2.1 (by decide), h2.2.2.1 (by decide)⟩

/-! ### Claim C5: the forecast row schema -/

/-- Claim C5 (code evidence): the forecasts table drops `point_estimate`,
`quantile_values` and `question_set_id` — two distinct forecasts differing in
exactly those fields persist to identical rows, and a persisted-then-read
forecast has lost them. -/
theorem forecast_row_drops_prediction_fields :
    forecastToRow contForecastA = forecastToRow contForecastB
    ∧ contForecastA ≠ contForecastB
    ∧ contForecastA.point_estimate = some (mkRat 5 2)
    ∧ contForecastA.question_set_id = some 7
    ∧ (rowToForecast (forecastToRow contForecastA)).point_estimate = none
    ∧ (rowToForecast (forecastToRow contForecastA)).quantile_values = none
    ∧ (rowToForecast (forecastToRow contForecastA)).question_set_id = none := by
  decide

/-! ### Claim C9: source-fetch failure handling -/

/-- Claim C9 counterexample: with page 1 delivering one question and the
page-2 request failing with an HTTP error, `fetch_questions` returns the
page-1 question — the partial-page result is retained, so the source does not
contribute zero questions. -/
theorem gj_fetch_questions_partial_page_counterexample :
    GoodJudgment.fetch_questions worldC9 10 = [gjQ1]
    ∧ worldC9 1 = .ok pageOne
    ∧ worldC9 2 = .error "connection error"
    ∧ GoodJudgment.fetch_questions worldC9 10 ≠ [] := by
  decide

/-- Claim C9 (amended): an HTTP failure is caught locally (the loop breaks, no
exception escapes) and ends that source's pagination, returning exactly the
questions already accumulated from the pages processed before the failure —
partial-page results are retained; in particular, a failure on the first page
request makes the source contribute zero questions for the run. -/
theorem gj_fetch_questions_failure_contract (world : Nat → Except String PageData) :
    (∀ fuel page acc msg, world page = .error msg →
        GoodJudgment.fetchQuestionsLoop world (fuel + 1) page acc = acc)
    ∧ (∀ fuel msg, world 1 = .error msg → 0 < fuel →
        GoodJudgment.fetch_questions world fuel = []) := by
  constructor
  · intro fuel page acc msg h
    simp [GoodJudgment.fetchQuestionsLoop, h]
  · intro fuel msg h1 hf
    obtain ⟨n, rfl⟩ : ∃ n, fuel = n + 1 := ⟨fuel - 1, by omega⟩
    simp [GoodJudgment.fetch_questions, GoodJudgment.fetchQuestionsLoop, h1]

/-- Witness for the amended C9: the failing page-2 request returns the page-1
question already accumulated, and a world failing from the first request
contributes zero questions. -/
theorem gj_fetch_questions_failure_contract_witness :
    GoodJudgment.fetchQuestionsLoop worldC9 10 2 [gjQ1] = [gjQ1]
    ∧ GoodJudgment.fetch_questions worldFailAll 5 = [] :=
  ⟨(gj_fetch_questions_failure_contract worldC9).1 9 2 [gjQ1] "connection error"
      (by decide),
    (gj_fetch_questions_failure_contract worldFailAll).2 5 "boom" rfl (by decide)⟩

/-! ### Claim C10: interim crowd-forecast resolutions -/

/-- Claim C10 counterexample: an open question reporting the numeric crowd
forecast 0 gets `none` from `fetch_resolution` (Python's `or` treats 0 as
falsy), although the claim requires a Resolution valued 0. -/
theorem gj_fetch_resolution_zero_crowd_counterexample :
    gjOpenZero.status ≠ some (.s "resolved")
    ∧ gjOpenZero.status ≠ some (.s "closed")
    ∧ gjOpenZero.crowd_forecast = some (.num (mkRat 0 1))
    ∧ pyFloat (.num (mkRat 0 1)) = some (mkRat 0 1)
    ∧ GoodJudgment.fetch_resolution "q1" 0 (some gjOpenZero) = none := by
  decide

/-- Claim C10 (amended): `fetch_resolution` returns `none` on HTTP failure;
for a non-resolved/closed status it returns a Resolution dated today whose
value is `float` of the effective crowd forecast
(`crowd_forecast or community_prediction`, Python truthiness) exactly when
that parses, and `none` otherwise; for a resolved/closed status it returns the
recognised resolution value or `none`, never consulting the crowd forecast. -/
theorem gj_fetch_resolution_contract (question_id : String) (today : Int)
    (d : GJData) :
    GoodJudgment.fetch_resolution question_id today none = none
    ∧ (¬(d.status = some (.s "resolved") ∨ d.status = some (.s "closed")) →
        GoodJudgment.fetch_resolution question_id today (some d)
          = match (pyOr d.crowd_forecast d.community_prediction).bind pyFloat with
            | some v => some ⟨question_id, "good_judgment", today, v⟩
            | none => none)
    ∧ ((d.status = some (.s "resolved") ∨ d.status = some (.s "closed")) →
        GoodJudgment.fetch_resolution question_id today (some d)
          = match resolutionValue d.resolution with
            | some v => some ⟨question_id, "good_judgment", today, v⟩
            | none => none) := by
  refine ⟨rfl, ?_, ?_⟩
  · intro hstat
    rw [GoodJudgment.fetch_resolution, if_neg hstat]
    cases hor : pyOr d.crowd_forecast d.community_prediction with
    | none => simp
    | some cf =>
      rw [Option.some_bind]
  · intro hstat
    rw [GoodJudgment.fetch_resolution, if_pos hstat]

/-- Witness for the amended C10: an open question with crowd forecast 0.7
resolves to an interim value of 0.7 dated today. -/
theorem gj_fetch_resolution_contract_witness :
    GoodJudgment.fetch_resolution "q" 5 (some gjOpenCrowd)
      = some ⟨"q", "good_judgment", 5, mkRat 7 10⟩ := by
  have h := (gj_fetch_resolution_contract "q" 5 gjOpenCrowd).2.1 (by decide)
  exact h.trans (by decide)

/-! ### Claim C6: storage question identity -/

theorem keyEq_iff (x : QuestionRow) (s i : String) :
    x.keyEq s i = true ↔ x.source = s ∧ x.id = i := by
  simp [QuestionRow.keyEq]

theorem keyEq_self (r : QuestionRow) : r.keyEq r.source r.id = true := by
  simp [QuestionRow.keyEq]

theorem length_filter_keyEq_le (rows : List QuestionRow)
    (hnd : (questionKeys rows).Nodup) (s i : String) :
    (rows.filter fun x => x.keyEq s i).length ≤ 1 := by
  induction rows with
  | nil => simp
  | cons r t ih =>
    have hc : (r.source, r.id) ∉ questionKeys t ∧ (questionKeys t).Nodup := by
      simpa [questionKeys] using hnd
    cases hx : r.keyEq s i with
    | false => simpa [hx] using ih hc.2
    | true =>
      have hkey : r.source = s ∧ r.id = i := (keyEq_iff r s i).mp hx
      have hnil : t.filter (fun x => x.keyEq s i) = [] := by
        rw [List.filter_eq_nil_iff]
        intro x hxt hpx
        have hk : x.source = s ∧ x.id = i := (keyEq_iff x s i).mp hpx
        exact hc.1 (by
          have hmem : (x.source, x.id) ∈ questionKeys t := List.mem_map_of_mem _ hxt
          rw [hkey.1, hkey.2]
          rwa [hk.1, hk.2] at hmem)
      simp [hx, hnil]

theorem questionKeys_mergeQuestionRow (rows : List QuestionRow) (r : QuestionRow)
    (hnd : (questionKeys rows).Nodup) :
    (questionKeys (mergeQuestionRow rows r)).Nodup := by
  rw [mergeQuestionRow]
  cases hany : rows.any (fun x => x.keyEq r.source r.id) with
  | true =>
    rw [if_pos rfl]
    have heq : questionKeys (rows.map fun x => if x.keyEq r.source r.id then r else x)
        = questionKeys rows := by
      rw [questionKeys, List.map_map, questionKeys]
      refine List.map_congr_left ?_
      intro x hx
      cases hk : x.keyEq r.source r.id with
      | false => simp [hk]
      | true =>
        have h2 := (keyEq_iff x r.source r.id).mp hk
        simp [hk, h2.1, h2.2]
    rwa [heq]
  | false =>
    rw [if_neg (by simp [hany])]
    have hmem : (r.source, r.id) ∉ questionKeys rows := by
      intro hk
      obtain ⟨x, hxr, hxk⟩ := List.mem_map.mp hk
      have hx2 : x.keyEq r.source r.id = true :=
        (keyEq_iff x r.source r.id).mpr ⟨congrArg Prod.fst hxk, congrArg Prod.snd hxk⟩
      have hx3 : (rows.any fun x => x.keyEq r.source r.id) = true :=
        List.any_eq_true.mpr ⟨x, hxr, hx2⟩
      rw [hany] at hx3
      exact Bool.false_ne_true hx3
    have : questionKeys (rows ++ [r]) = questionKeys rows ++ [(r.source, r.id)] := by
      simp [questionKeys]
    rw [this]
    exact List.Nodup.append hnd (List.nodup_singleton _)
      (fun a ha hb => by
        rw [List.mem_singleton] at hb
        exact hmem (hb ▸ ha))

theorem getQuestionRows_mergeQuestionRow (rows : List QuestionRow) (r : QuestionRow)
    (hnd : (questionKeys rows).Nodup) :
    getQuestionRows (mergeQuestionRow rows r) r.source r.id = [r] := by
  rw [mergeQuestionRow, getQuestionRows]
  cases hany : rows.any (fun x => x.keyEq r.source r.id) with
  | true =>
    rw [if_pos rfl, List.filter_map]
    have hcongr : rows.filter
        ((fun x => x.keyEq r.source r.id) ∘ fun x => if x.keyEq r.source r.id then r else x)
        = rows.filter (fun x => x.keyEq r.source r.id) := by
      refine List.filter_congr ?_
      intro x hx
      cases hk : x.keyEq r.source r.id with
      | false => simp [hk]
      | true => simp [hk, keyEq_self]
    rw [hcongr]
    obtain ⟨x, hxr, hxk⟩ := List.any_eq_true.mp hany
    have hxf : x ∈ rows.filter (fun x => x.keyEq r.source r.id) :=
      List.mem_filter.mpr ⟨hxr, hxk⟩
    have hpos : 0 < (rows.filter (fun x => x.keyEq r.source r.id)).length :=
      List.length_pos.mpr (by
        intro hnil
        rw [hnil] at hxf
        exact List.not_mem_nil x hxf)
    have hle := length_filter_keyEq_le rows hnd r.source r.id
    obtain ⟨a, ha⟩ := List.length_eq_one.mp (Nat.le_antisymm hle hpos)
    rw [ha]
    have haf : a ∈ rows.filter (fun x => x.keyEq r.source r.id) := by
      rw [ha]; exact List.mem_singleton_self a
    have hak : a.keyEq r.source r.id = true := (List.mem_filter.mp haf).2
    simp [hak]
  | false =>
    rw [if_neg (by simp [hany]), List.filter_append]
    have h1 : rows.filter (fun x => x.keyEq r.source r.id) = [] := by
      rw [List.filter_eq_nil_iff]
      intro x hxr hpx
      have hx3 : (rows.any fun x => x.keyEq r.source r.id) = true :=
        List.any_eq_true.mpr ⟨x, hxr, hpx⟩
      rw [hany] at hx3
      exact Bool.false_ne_true hx3
    rw [h1]
    simp [keyEq_self]

theorem saveQuestions_nodup (qs : List Question) :
    ∀ rows : List QuestionRow, (questionKeys rows).Nodup →
      (questionKeys (saveQuestions rows qs)).Nodup := by
  induction qs with
  | nil => intro rows hnd; exact hnd
  | cons q t ih =>
    intro rows hnd
    exact ih (mergeQuestionRow rows (questionToRow q))
      (questionKeys_mergeQuestionRow rows (questionToRow q) hnd)

/-- Claim C6: storage keeps `(source, id)` a key — saving a question whose key
is already stored replaces the row (same row count, and the lookup afterwards
finds exactly the new row), saving never creates a duplicate key
(`save_question` and `save_questions` preserve key-uniqueness), and under that
invariant a `get_question` lookup matches at most one row, so
`scalar_one_or_none` never raises `MultipleResultsFound`. -/
theorem storage_question_key_invariant (rows : List QuestionRow) (q : Question)
    (qs : List Question) (hnd : (questionKeys rows).Nodup) :
    (questionKeys (saveQuestion rows q)).Nodup
    ∧ (questionKeys (saveQuestions rows qs)).Nodup
    ∧ ((rows.any fun x => x.keyEq q.source q.id) = true →
        (saveQuestion rows q).length = rows.length)
    ∧ getQuestionRows (saveQuestion rows q) q.source q.id = [questionToRow q]
    ∧ (∀ s i, (getQuestionRows rows s i).length ≤ 1)
    ∧ (∀ s i, scalarOneOrNone (getQuestionRows rows s i)
        ≠ Except.error "MultipleResultsFound") := by
  refine ⟨questionKeys_mergeQuestionRow rows (questionToRow q) hnd,
    saveQuestions_nodup qs rows hnd, ?_, ?_, ?_, ?_⟩
  · intro hany
    rw [saveQuestion, mergeQuestionRow, if_pos (by exact hany)]
    exact List.length_map rows _
  · exact getQuestionRows_mergeQuestionRow rows (questionToRow q) hnd
  · intro s i
    exact length_filter_keyEq_le rows hnd s i
  · intro s i hmulti
    have hle := length_filter_keyEq_le rows hnd s i
    rw [getQuestionRows] at hmulti
    revert hmulti
    cases hl : rows.filter (fun x => x.keyEq s i) with
    | nil => simp [scalarOneOrNone]
    | cons a t =>
      cases t with
      | nil => simp [scalarOneOrNone]
      | cons b u =>
        rw [hl] at hle
        simp at hle

/-- Witness for C6: a one-row table, updated at the same key and extended by a
fresh key. -/
theorem storage_question_key_invariant_witness :
    (questionKeys (saveQuestion rowsW qStore1b)).Nodup
    ∧ getQuestionRows (saveQuestion rowsW qStore1b) qStore1b.source qStore1b.id
        = [questionToRow qStore1b]
    ∧ (saveQuestion rowsW qStore1b).length = rowsW.length
    ∧ (questionKeys (saveQuestions rowsW [qStore2])).Nodup :=
  have h := storage_question_key_invariant rowsW qStore1b [qStore2] (by decide)
  ⟨h.1, h.2.2.2.1, h.2.2.1 (by decide), h.2.1⟩

/-! ### Sampling lemmas, claims C7 and C8 -/

theorem eligibleB_iff (now maxD : Int) (q : Question) :
    eligibleB now maxD q = true
      ↔ ∃ d, q.resolution_date = some d ∧ now ≤ d ∧ d ≤ now + maxD := by
  cases hr : q.resolution_date with
  | none => simp [eligibleB, hr]
  | some d => simp [eligibleB, hr]

theorem sample_stratified_questions (cfg : SamplingConfig) (now : Int)
    (draw : List Question → Nat → List Question) (pool : List Question) :
    (sample_stratified cfg now draw pool).questions
      = draw (eligibleStratum cfg now .market pool) (marketTarget cfg)
        ++ draw (eligibleStratum cfg now .data pool) (dataTarget cfg) := rfl

theorem mem_eligibleStratum (cfg : SamplingConfig) (now : Int) (st : SourceType)
    (pool : List Question) {q : Question} (h : q ∈ eligibleStratum cfg now st pool) :
    q ∈ pool ∧ q.source_type = st
      ∧ eligibleB now cfg.max_resolution_days q = true := by
  rw [eligibleStratum] at h
  have h1 := List.mem_filter.mp h
  have h2 := List.mem_filter.mp h1.1
  exact ⟨h2.1, by simpa using h2.2, h1.2⟩

theorem mem_sample_stratified (cfg : SamplingConfig) (now : Int)
    (draw : List Question → Nat → List Question) (pool : List Question)
    (hd : DrawSpec draw) {q : Question}
    (hq : q ∈ (sample_stratified cfg now draw pool).questions) :
    q ∈ pool ∧ eligibleB now cfg.max_resolution_days q = true := by
  rw [sample_stratified_questions] at hq
  cases List.mem_append.mp hq with
  | inl h =>
    have hm := (hd (eligibleStratum cfg now .market pool) (marketTarget cfg)).1.subset h
    have := mem_eligibleStratum cfg now .market pool hm
    exact ⟨this.1, this.2.2⟩
  | inr h =>
    have hm := (hd (eligibleStratum cfg now .data pool) (dataTarget cfg)).1.subset h
    have := mem_eligibleStratum cfg now .data pool hm
    exact ⟨this.1, this.2.2⟩

/-- Claim C7: every question selected by `sample_stratified` has a set
`resolution_date` lying within `[now, now + max_resolution_days]`; a question
whose date is further out is never selected, and a question with no date is
never selected (silently ineligible — the engine is total). -/
theorem sampled_within_horizon (cfg : SamplingConfig) (now : Int)
    (draw : List Question → Nat → List Question) (pool : List Question)
    (hd : DrawSpec draw) :
    (∀ q ∈ (sample_stratified cfg now draw pool).questions,
        ∃ d, q.resolution_date = some d ∧ now ≤ d ∧ d ≤ now + cfg.max_resolution_days)
    ∧ (∀ q, q.resolution_date = none →
        q ∉ (sample_stratified cfg now draw pool).questions)
    ∧ (∀ q d, q.resolution_date = some d → now + cfg.max_resolution_days < d →
        q ∉ (sample_stratified cfg now draw pool).questions) := by
  have key : ∀ q ∈ (sample_stratified cfg now draw pool).questions,
      ∃ d, q.resolution_date = some d ∧ now ≤ d ∧ d ≤ now + cfg.max_resolution_days := by
    intro q hq
    exact (eligibleB_iff now cfg.max_resolution_days q).mp
      (mem_sample_stratified cfg now draw pool hd hq).2
  refine ⟨key, ?_, ?_⟩
  · intro q hnone hq
    obtain ⟨d, hd2, _, _⟩ := key q hq
    rw [hnone] at hd2
    exact Option.noConfusion hd2
  · intro q d hsome hfar hq
    obtain ⟨e, he, _, hle⟩ := key q hq
    rw [hsome] at he
    have : d = e := Option.some.inj he
    omega

/-- Witness for C7 at the run_benchmark configuration and a concrete pool. -/
theorem sampled_within_horizon_witness :
    (∀ q ∈ (sample_stratified cfgHalf 0 takeDraw poolBig).questions,
        ∃ d, q.resolution_date = some d ∧ (0:Int) ≤ d ∧ d ≤ 0 + 365)
    ∧ qm1 ∈ (sample_stratified cfgHalf 0 takeDraw poolBig).questions :=
  ⟨(sampled_within_horizon cfgHalf 0 takeDraw poolBig takeDraw_spec).1, by decide⟩

theorem pyRoundRat_zero {d : Int} (hd : 0 < d) : pyRoundRat 0 d = 0 := by
  simp only [pyRoundRat]
  have hf : Int.fdiv 0 d = 0 := Int.zero_fdiv d
  rw [hf]
  split_ifs <;> omega

/-- Claim C8: with `num_questions = 0` the sampler returns an empty question
list and an empty warnings list, for every pool; the embedding is a pure
function of (pool, config, draw), so repeated calls return the same empty
result and the pool — passed by value — is never mutated. -/
theorem sample_stratified_zero (cfg : SamplingConfig) (now : Int)
    (draw : List Question → Nat → List Question) (pool : List Question)
    (hd : DrawSpec draw) (h : cfg.num_questions = 0) :
    sample_stratified cfg now draw pool = ⟨[], []⟩ := by
  have hden : (0:Int) < (cfg.market_fraction.den : Int) := by
    exact_mod_cast cfg.market_fraction.den_pos
  have hmtz : marketTargetZ cfg = 0 := by
    rw [marketTargetZ, h]
    simpa using pyRoundRat_zero hden
  have hmT : marketTarget cfg = 0 := by rw [marketTarget, hmtz]; rfl
  have hdT : dataTarget cfg = 0 := by
    rw [dataTarget, hmtz, h]
    simp
  have e1 : draw (eligibleStratum cfg now .market pool) 0 = [] :=
    List.length_eq_zero.mp (by
      rw [(hd (eligibleStratum cfg now .market pool) 0).2]
      exact Nat.zero_min _)
  have e2 : draw (eligibleStratum cfg now .data pool) 0 = [] :=
    List.length_eq_zero.mp (by
      rw [(hd (eligibleStratum cfg now .data pool) 0).2]
      exact Nat.zero_min _)
  simp only [sample_stratified, hmT, hdT, e1, e2]
  simp

/-- Witness for C8: the zero-question config on a populated pool. -/
theorem sample_stratified_zero_witness :
    sample_stratified cfgZero 5 takeDraw poolBig = ⟨[], []⟩ :=
  sample_stratified_zero cfgZero 5 takeDraw poolBig takeDraw_spec rfl

/-! ### Rounding and target-count lemmas -/

theorem pyRoundRat_nonneg {n d : Int} (hn : 0 ≤ n) (hd : 0 < d) :
    0 ≤ pyRoundRat n d := by
  simp only [pyRoundRat]
  have hf0 : 0 ≤ n.fdiv d := by
    rw [Int.fdiv_eq_ediv n hd.le]
    exact Int.ediv_nonneg hn hd.le
  split_ifs <;> omega

theorem pyRoundRat_le {n d N : Int} (hd : 0 < d) (h : n ≤ N * d) :
    pyRoundRat n d ≤ N := by
  simp only [pyRoundRat]
  have hfe : n.fdiv d = n / d := Int.fdiv_eq_ediv n hd.le
  have hlow : n.fdiv d * d ≤ n := by
    rw [hfe]
    exact Int.ediv_mul_le n (ne_of_gt hd)
  have hfN : n.fdiv d ≤ N := by
    by_contra hc
    push_neg at hc
    have hstep : N + 1 ≤ n.fdiv d := hc
    have h1 : (N + 1) * d ≤ n.fdiv d * d :=
      mul_le_mul_of_nonneg_right hstep hd.le
    have hexp : (N + 1) * d = N * d + d := add_one_mul N d
    linarith
  have hnext : d ≤ 2 * (n - n.fdiv d * d) → n.fdiv d + 1 ≤ N := by
    intro hr
    by_contra hc
    push_neg at hc
    have hNle : N ≤ n.fdiv d := by omega
    have hmul : N * d ≤ n.fdiv d * d := mul_le_mul_of_nonneg_right hNle hd.le
    linarith
  split_ifs with h1 h2 h3
  · exact hfN
  · exact hnext (by omega)
  · exact hfN
  · exact hnext (by omega)

theorem marketFraction_den_pos (cfg : SamplingConfig) :
    (0:Int) < (cfg.market_fraction.den : Int) := by
  exact_mod_cast cfg.market_fraction.den_pos

theorem marketTargetZ_nonneg (cfg : SamplingConfig)
    (h0 : 0 ≤ cfg.market_fraction) : 0 ≤ marketTargetZ cfg := by
  rw [marketTargetZ]
  exact pyRoundRat_nonneg
    (mul_nonneg (Int.ofNat_nonneg _) (Rat.num_nonneg.mpr h0))
    (marketFraction_den_pos cfg)

theorem marketTargetZ_le (cfg : SamplingConfig)
    (h1 : cfg.market_fraction ≤ 1) :
    marketTargetZ cfg ≤ (cfg.num_questions : Int) := by
  rw [marketTargetZ]
  refine pyRoundRat_le (marketFraction_den_pos cfg) ?_
  have hnum_le : cfg.market_fraction.num ≤ (cfg.market_fraction.den : Int) := by
    have h2 := Rat.le_def.mp h1
    simpa [Rat.num_one, Rat.den_one] using h2
  rw [mul_comm (cfg.num_questions : Int) (cfg.market_fraction.den : Int)]
  calc (cfg.num_questions : Int) * cfg.market_fraction.num
      ≤ (cfg.num_questions : Int) * (cfg.market_fraction.den : Int) :=
        mul_le_mul_of_nonneg_left hnum_le (Int.ofNat_nonneg _)
    _ = (cfg.market_fraction.den : Int) * (cfg.num_questions : Int) := mul_comm _ _

theorem marketTarget_add_dataTarget (cfg : SamplingConfig)
    (h0 : 0 ≤ cfg.market_fraction) (h1 : cfg.market_fraction ≤ 1) :
    marketTarget cfg + dataTarget cfg = cfg.num_questions := by
  have ha := marketTargetZ_nonneg cfg h0
  have hb := marketTargetZ_le cfg h1
  rw [marketTarget, dataTarget]
  omega

/-! ### Stratum composition lemmas -/

theorem eligibleStratum_sublist (cfg : SamplingConfig) (now : Int)
    (st : SourceType) (pool : List Question) :
    (eligibleStratum cfg now st pool).Sublist pool :=
  (List.filter_sublist _).trans (List.filter_sublist _)

theorem filter_draw_same (cfg : SamplingConfig) (now : Int) (st : SourceType)
    (pool : List Question) (draw : List Question → Nat → List Question)
    (k : Nat) (hdr : DrawSpec draw) :
    ((draw (eligibleStratum cfg now st pool) k).filter
        fun q => q.source_type == st)
      = draw (eligibleStratum cfg now st pool) k := by
  refine List.filter_eq_self.mpr ?_
  intro q hq
  have h := (mem_eligibleStratum cfg now st pool
    ((hdr (eligibleStratum cfg now st pool) k).1.subset hq)).2.1
  simp [h]

theorem filter_draw_other (cfg : SamplingConfig) (now : Int) (st st2 : SourceType)
    (pool : List Question) (draw : List Question → Nat → List Question)
    (k : Nat) (hdr : DrawSpec draw) (hst : st ≠ st2) :
    ((draw (eligibleStratum cfg now st pool) k).filter
        fun q => q.source_type == st2) = [] := by
  refine List.filter_eq_nil_iff.mpr ?_
  intro q hq hq2
  have h := (mem_eligibleStratum cfg now st pool
    ((hdr (eligibleStratum cfg now st pool) k).1.subset hq)).2.1
  rw [h] at hq2
  exact hst (by simpa using hq2)

theorem sample_stratified_warnings (cfg : SamplingConfig) (now : Int)
    (draw : List Question → Nat → List Question) (pool : List Question) :
    (sample_stratified cfg now draw pool).warnings
      = (if (eligibleStratum cfg now .market pool).length < marketTarget cfg
          then [stratumWarning "MARKET" (marketTarget cfg)
            (eligibleStratum cfg now .market pool).length]
          else [])
        ++ (if (eligibleStratum cfg now .data pool).length < dataTarget cfg
          then [stratumWarning "DATA" (dataTarget cfg)
            (eligibleStratum cfg now .data pool).length]
          else []) := rfl

/-! ### Claim C1: the balanced-sampling contract -/

/-- Claim C1 counterexample.  Part one: a pool carrying a duplicated
`(source, id)` pair meets the claim's premisses (≥ N eligible questions in
each stratum) yet produces a result with duplicate keys.  Part two: the claim
quantifies over every `SamplingConfig`; with `market_fraction = 2` the
premisses hold yet the warnings list is nonempty. -/
theorem sample_stratified_balanced_counterexample :
    (cfgDup.num_questions ≤ eligibleCount cfgDup 0 .market poolDup
      ∧ cfgDup.num_questions ≤ eligibleCount cfgDup 0 .data poolDup
      ∧ ¬((sample_stratified cfgDup 0 takeDraw poolDup).questions.map
            questionKey).Nodup)
    ∧ (cfgOverOne.num_questions ≤ eligibleCount cfgOverOne 0 .market poolOverOne
      ∧ cfgOverOne.num_questions ≤ eligibleCount cfgOverOne 0 .data poolOverOne
      ∧ (sample_stratified cfgOverOne 0 takeDraw poolOverOne).warnings ≠ []) := by
  decide

/-- Claim C1 (amended): for a config with `market_fraction` in [0,1] and a
deduplicated pool with at least `num_questions` eligible questions in each
stratum, the sampler returns exactly `num_questions` questions —
`round(N * f)` of them market-origin, the rest data-origin — with no duplicate
`(source, id)` pair and no warnings. -/
theorem sample_stratified_balanced (cfg : SamplingConfig) (now : Int)
    (draw : List Question → Nat → List Question) (pool : List Question)
    (hdr : DrawSpec draw)
    (hnd : (pool.map questionKey).Nodup)
    (h0 : 0 ≤ cfg.market_fraction) (h1 : cfg.market_fraction ≤ 1)
    (hm : cfg.num_questions ≤ eligibleCount cfg now .market pool)
    (hdq : cfg.num_questions ≤ eligibleCount cfg now .data pool) :
    (sample_stratified cfg now draw pool).questions.length = cfg.num_questions
    ∧ ((sample_stratified cfg now draw pool).questions.filter
        fun q => q.source_type == SourceType.market).length = marketTarget cfg
    ∧ ((sample_stratified cfg now draw pool).questions.filter
        fun q => q.source_type == SourceType.data).length
        = cfg.num_questions - marketTarget cfg
    ∧ ((sample_stratified cfg now draw pool).questions.map questionKey).Nodup
    ∧ (sample_stratified cfg now draw pool).warnings = [] := by
  have hsum := marketTarget_add_dataTarget cfg h0 h1
  have hmt_le : marketTarget cfg ≤ cfg.num_questions := by omega
  have hdt_le : dataTarget cfg ≤ cfg.num_questions := by omega
  have hm2 : cfg.num_questions ≤ (eligibleStratum cfg now SourceType.market pool).length := hm
  have hd2 : cfg.num_questions ≤ (eligibleStratum cfg now SourceType.data pool).length := hdq
  have hlenM : (draw (eligibleStratum cfg now .market pool) (marketTarget cfg)).length
      = marketTarget cfg := by
    rw [(hdr (eligibleStratum cfg now .market pool) (marketTarget cfg)).2]
    exact min_eq_left (le_trans hmt_le hm)
  have hlenD : (draw (eligibleStratum cfg now .data pool) (dataTarget cfg)).length
      = dataTarget cfg := by
    rw [(hdr (eligibleStratum cfg now .data pool) (dataTarget cfg)).2]
    exact min_eq_left (le_trans hdt_le hdq)
  refine ⟨?_, ?_, ?_, ?_, ?_⟩
  · rw [sample_stratified_questions, List.length_append, hlenM, hlenD]
    omega
  · rw [sample_stratified_questions, List.filter_append,
      filter_draw_same cfg now .market pool draw _ hdr,
      filter_draw_other cfg now .data .market pool draw _ hdr (by decide),
      List.append_nil, hlenM]
  · rw [sample_stratified_questions, List.filter_append,
      filter_draw_same cfg now .data pool draw _ hdr,
      filter_draw_other cfg now .market .data pool draw _ hdr (by decide),
      List.nil_append, hlenD]
    omega
  · rw [sample_stratified_questions, List.map_append]
    have hsubM : (draw (eligibleStratum cfg now .market pool) (marketTarget cfg)).Sublist pool :=
      (hdr _ _).1.trans (eligibleStratum_sublist cfg now .market pool)
    have hsubD : (draw (eligibleStratum cfg now .data pool) (dataTarget cfg)).Sublist pool :=
      (hdr _ _).1.trans (eligibleStratum_sublist cfg now .data pool)
    refine List.Nodup.append ((hsubM.map questionKey).nodup hnd)
      ((hsubD.map questionKey).nodup hnd) ?_
    intro k hkM hkD
    obtain ⟨a, haM, hak⟩ := List.mem_map.mp hkM
    obtain ⟨b, hbD, hbk⟩ := List.mem_map.mp hkD
    have haP := mem_eligibleStratum cfg now .market pool ((hdr _ _).1.subset haM)
    have hbP := mem_eligibleStratum cfg now .data pool ((hdr _ _).1.subset hbD)
    have hab : a = b :=
      List.inj_on_of_nodup_map hnd haP.1 hbP.1 (by rw [hak, hbk])
    rw [hab, hbP.2.1] at haP
    exact SourceType.noConfusion haP.2.1
  · rw [sample_stratified_warnings,
      if_neg (by omega : ¬(eligibleStratum cfg now .market pool).length < marketTarget cfg),
      if_neg (by omega : ¬(eligibleStratum cfg now .data pool).length < dataTarget cfg)]
    rfl

/-- Witness for the amended C1 at the run_benchmark configuration. -/
theorem sample_stratified_balanced_witness :
    (sample_stratified cfgHalf 0 takeDraw poolBig).questions.length = 4
    ∧ ((sample_stratified cfgHalf 0 takeDraw poolBig).questions.map
        questionKey).Nodup
    ∧ (sample_stratified cfgHalf 0 takeDraw poolBig).warnings = [] :=
  have h := sample_stratified_balanced cfgHalf 0 takeDraw poolBig takeDraw_spec
    (by decide) (by decide) (by decide) (by decide) (by decide)
  ⟨h.1, h.2.2.2.1, h.2.2.2.2⟩

/-! ### Claim C2: stratum shortfall -/

/-- Claim C2 counterexample: the claim quantifies over every config; with
`market_fraction = 2` (`num_questions = 2`, so a market target of 4), a pool
of 3 eligible market and 1 eligible data questions has a market shortfall and
a satisfied data stratum, yet the result has 3 questions — not fewer than
`num_questions`. -/
theorem sample_stratified_shortfall_counterexample :
    eligibleCount cfgShortOver 0 .market poolShortOver < marketTarget cfgShortOver
    ∧ dataTarget cfgShortOver ≤ eligibleCount cfgShortOver 0 .data poolShortOver
    ∧ ¬((sample_stratified cfgShortOver 0 takeDraw poolShortOver).questions.length
        < cfgShortOver.num_questions) := by
  decide

/-- Claim C2 (amended): for a config with `market_fraction` in [0,1], when
exactly one stratum has fewer eligible questions than its target (the other
meeting its target), the sampler returns fewer than `num_questions` questions
and exactly one warning naming that stratum with the requested and available
counts, and the shortfall is not redistributed — the other stratum still
contributes at most its own target. -/
theorem sample_stratified_shortfall (cfg : SamplingConfig) (now : Int)
    (draw : List Question → Nat → List Question) (pool : List Question)
    (hdr : DrawSpec draw)
    (h0 : 0 ≤ cfg.market_fraction) (h1 : cfg.market_fraction ≤ 1) :
    (eligibleCount cfg now .market pool < marketTarget cfg →
      dataTarget cfg ≤ eligibleCount cfg now .data pool →
        (sample_stratified cfg now draw pool).questions.length < cfg.num_questions
        ∧ (sample_stratified cfg now draw pool).warnings
            = [stratumWarning "MARKET" (marketTarget cfg)
                (eligibleCount cfg now .market pool)]
        ∧ ((sample_stratified cfg now draw pool).questions.filter
            fun q => q.source_type == SourceType.data).length ≤ dataTarget cfg)
    ∧ (eligibleCount cfg now .data pool < dataTarget cfg →
      marketTarget cfg ≤ eligibleCount cfg now .market pool →
        (sample_stratified cfg now draw pool).questions.length < cfg.num_questions
        ∧ (sample_stratified cfg now draw pool).warnings
            = [stratumWarning "DATA" (dataTarget cfg)
                (eligibleCount cfg now .data pool)]
        ∧ ((sample_stratified cfg now draw pool).questions.filter
            fun q => q.source_type == SourceType.market).length ≤ marketTarget cfg) := by
  have hsum := marketTarget_add_dataTarget cfg h0 h1
  constructor
  · intro hshort hok
    have hshort2 : (eligibleStratum cfg now SourceType.market pool).length
        < marketTarget cfg := hshort
    have hok2 : dataTarget cfg
        ≤ (eligibleStratum cfg now SourceType.data pool).length := hok
    have hlenM : (draw (eligibleStratum cfg now .market pool) (marketTarget cfg)).length
        = (eligibleStratum cfg now SourceType.market pool).length := by
      rw [(hdr (eligibleStratum cfg now .market pool) (marketTarget cfg)).2]
      exact min_eq_right hshort2.le
    have hlenD : (draw (eligibleStratum cfg now .data pool) (dataTarget cfg)).length
        = dataTarget cfg := by
      rw [(hdr (eligibleStratum cfg now .data pool) (dataTarget cfg)).2]
      exact min_eq_left hok2
    refine ⟨?_, ?_, ?_⟩
    · rw [sample_stratified_questions, List.length_append, hlenM, hlenD]
      omega
    · rw [sample_stratified_warnings, if_pos hshort2,
        if_neg (by omega : ¬(eligibleStratum cfg now .data pool).length < dataTarget cfg)]
      rfl
    · rw [sample_stratified_questions, List.filter_append,
        filter_draw_same cfg now .data pool draw _ hdr,
        filter_draw_other cfg now .market .data pool draw _ hdr (by decide),
        List.nil_append, hlenD]
  · intro hshort hok
    have hshort2 : (eligibleStratum cfg now SourceType.data pool).length
        < dataTarget cfg := hshort
    have hok2 : marketTarget cfg
        ≤ (eligibleStratum cfg now SourceType.market pool).length := hok
    have hlenM : (draw (eligibleStratum cfg now .market pool) (marketTarget cfg)).length
        = marketTarget cfg := by
      rw [(hdr (eligibleStratum cfg now .market pool) (marketTarget cfg)).2]
      exact min_eq_left hok2
    have hlenD : (draw (eligibleStratum cfg now .data pool) (dataTarget cfg)).length
        = (eligibleStratum cfg now SourceType.data pool).length := by
      rw [(hdr (eligibleStratum cfg now .data pool) (dataTarget cfg)).2]
      exact min_eq_right hshort2.le
    refine ⟨?_, ?_, ?_⟩
    · rw [sample_stratified_questions, List.length_append, hlenM, hlenD]
      omega
    · rw [sample_stratified_warnings,
        if_neg (by omega : ¬(eligibleStratum cfg now .market pool).length < marketTarget cfg),
        if_pos hshort2]
      rfl
    · rw [sample_stratified_questions, List.filter_append,
        filter_draw_same cfg now .market pool draw _ hdr,
        filter_draw_other cfg now .data .market pool draw _ hdr (by decide),
        List.append_nil, hlenM]

/-- Witness for the amended C2: spec.md §8's shortfall scenario — a pool of
1 eligible market + 2 eligible data questions under (num_questions = 4,
market_fraction = 0.5) returns 3 questions and exactly the MARKET warning. -/
theorem sample_stratified_shortfall_witness :
    (sample_stratified cfgHalf 0 takeDraw poolShort).questions.length < 4
    ∧ (sample_stratified cfgHalf 0 takeDraw poolShort).warnings
        = [stratumWarning "MARKET" (marketTarget cfgHalf)
            (eligibleCount cfgHalf 0 .market poolShort)] :=
  have h := (sample_stratified_shortfall cfgHalf 0 takeDraw poolShort takeDraw_spec
    (by decide) (by decide)).1 (by decide) (by decide)
  ⟨h.1, h.2.1⟩

/-! ### Dispatch-loop lemmas, claim C4 -/

theorem runModelPass_storage (fc : String → Question → Forecast) (setId : Nat)
    (now : Int) (m : String) (qs : List Question) :
    ∀ storage : List ForecastRow,
      (runModelPass fc setId now m qs storage).1
        = storage ++ qs.map fun q => forecastToRow (rebuildWithSet (fc m q) setId now) := by
  induction qs with
  | nil => intro storage; simp [runModelPass]
  | cons q rest ih =>
    intro storage
    simp only [runModelPass]
    cases hC : isErrorForecast (fc m q) with
    | false =>
      simp only [hC, Bool.false_eq_true, if_false]
      rw [ih]
      simp [saveForecast]
    | true =>
      simp only [hC, if_true]
      rw [ih]
      simp [saveForecast]

theorem isErrorForecast_of_reasoning {f : Forecast} {s : String}
    (hs : f.reasoning = some s) (hp : pyStartsWith s "Error:" = true) :
    isErrorForecast f = true := by
  rw [isErrorForecast, hs]
  cases he : s == "" with
  | true =>
    have h2 : s = "" := by simpa using he
    rw [h2] at hp
    exact absurd hp (by decide)
  | false => simpa [he] using hp

theorem runModelPass_success_zero (fc : String → Question → Forecast) (setId : Nat)
    (now : Int) (m : String) (herr : ∀ q, isErrorForecast (fc m q) = true)
    (qs : List Question) :
    ∀ storage : List ForecastRow, (runModelPass fc setId now m qs storage).2.1 = 0 := by
  induction qs with
  | nil => intro storage; simp [runModelPass]
  | cons q rest ih =>
    intro storage
    simp only [runModelPass, herr q, if_true]
    exact ih _

theorem dispatchRows_cons (fc : String → Question → Forecast) (setId : Nat)
    (now : Int) (questions : List Question) (m : String) (rest : List String) :
    dispatchRows fc setId now questions (m :: rest)
      = (questions.map fun q => forecastToRow (rebuildWithSet (fc m q) setId now))
        ++ dispatchRows fc setId now questions rest := by
  simp [dispatchRows]

theorem runForecasts_storage (fc : String → Question → Forecast) (setId : Nat)
    (now : Int) (questions : List Question) (models : List String) :
    ∀ storage : List ForecastRow,
      (runForecasts fc setId now questions models storage).1
        = storage ++ dispatchRows fc setId now questions models := by
  induction models with
  | nil => intro storage; simp [runForecasts, dispatchRows]
  | cons m rest ih =>
    intro storage
    simp only [runForecasts]
    rw [ih, runModelPass_storage, dispatchRows_cons]
    simp

theorem runForecasts_results_zero (fc : String → Question → Forecast) (setId : Nat)
    (now : Int) (questions : List Question) (models : List String)
    (herr : ∀ m q, isErrorForecast (fc m q) = true) :
    ∀ storage : List ForecastRow,
      ∀ p ∈ (runForecasts fc setId now questions models storage).2, p.2 = 0 := by
  induction models with
  | nil => intro storage p hp; simp [runForecasts] at hp
  | cons m rest ih =>
    intro storage p hp
    simp only [runForecasts] at hp
    rcases List.mem_cons.mp hp with h | h
    · rw [h]
      exact runModelPass_success_zero fc setId now m (herr m) questions _
    · exact ih _ p h

theorem length_filter_key_eq_one {α κ : Type} [DecidableEq κ] (key : α → κ)
    (p : α → Bool) (a : α) (hp : ∀ x, p x = true ↔ key x = key a) :
    ∀ l : List α, (l.map key).Nodup → a ∈ l → (l.filter p).length = 1 := by
  intro l
  induction l with
  | nil => intro _ ha; cases ha
  | cons x t ih =>
    intro hnd ha
    have hc : key x ∉ t.map key ∧ (t.map key).Nodup := by simpa using hnd
    cases hx : p x with
    | true =>
      have hkx : key x = key a := (hp x).mp hx
      have hnil : t.filter p = [] := by
        rw [List.filter_eq_nil_iff]
        intro y hy hpy
        have hky : key y = key a := (hp y).mp hpy
        exact hc.1 (by
          have hym : key y ∈ t.map key := List.mem_map_of_mem key hy
          rw [hky, ← hkx] at hym
          exact hym)
      simp [hx, hnil]
    | false =>
      have hpa : p a = true := (hp a).mpr rfl
      have hax : a ≠ x := by
        intro he
        rw [he, hx] at hpa
        exact Bool.noConfusion hpa
      have hat : a ∈ t := by
        rcases List.mem_cons.mp ha with h | h
        · exact absurd h hax
        · exact h
      simp only [List.filter, hx]
      exact ih hc.2 hat

theorem rowsFor_append (a b : List ForecastRow) (m : String) (q : Question) :
    rowsFor (a ++ b) m q = rowsFor a m q + rowsFor b m q := by
  simp [rowsFor, List.filter_append]

theorem rowsFor_map_self (fc : String → Question → Forecast) (setId : Nat)
    (now : Int) (m : String) (questions : List Question)
    (hfc : ∀ m2 q2, (fc m2 q2).forecaster = m2 ∧ (fc m2 q2).question_id = q2.id
      ∧ (fc m2 q2).source = q2.source)
    (hqnd : (questions.map questionKey).Nodup) (q : Question) (hq : q ∈ questions) :
    rowsFor (questions.map fun q2 => forecastToRow (rebuildWithSet (fc m q2) setId now))
      m q = 1 := by
  rw [rowsFor, List.filter_map]
  rw [List.length_map]
  have hcongr : questions.filter ((fun r =>
        r.forecaster == m && r.source == q.source && r.question_id == q.id)
          ∘ fun q2 => forecastToRow (rebuildWithSet (fc m q2) setId now))
      = questions.filter fun q2 => q2.source == q.source && q2.id == q.id := by
    refine List.filter_congr ?_
    intro q2 _
    simp [forecastToRow, rebuildWithSet, (hfc m q2).1, (hfc m q2).2.1, (hfc m q2).2.2]
  rw [hcongr]
  refine length_filter_key_eq_one questionKey _ q ?_ questions hqnd hq
  intro x
  simp [questionKey, Prod.ext_iff]

theorem rowsFor_map_other (fc : String → Question → Forecast) (setId : Nat)
    (now : Int) (m2 m : String) (questions : List Question)
    (hfc : ∀ m3 q3, (fc m3 q3).forecaster = m3 ∧ (fc m3 q3).question_id = q3.id
      ∧ (fc m3 q3).source = q3.source)
    (hne : m2 ≠ m) (q : Question) :
    rowsFor (questions.map fun q2 => forecastToRow (rebuildWithSet (fc m2 q2) setId now))
      m q = 0 := by
  rw [rowsFor]
  have hnil : ((questions.map fun q2 =>
      forecastToRow (rebuildWithSet (fc m2 q2) setId now)).filter fun r =>
        r.forecaster == m && r.source == q.source && r.question_id == q.id) = [] := by
    rw [List.filter_eq_nil_iff]
    intro r hr hpr
    obtain ⟨q2, _, rfl⟩ := List.mem_map.mp hr
    simp only [forecastToRow, rebuildWithSet, (hfc m2 q2).1, Bool.and_eq_true,
      beq_iff_eq] at hpr
    exact hne hpr.1.1
  rw [hnil]
  rfl

theorem rowsFor_dispatch_notin (fc : String → Question → Forecast) (setId : Nat)
    (now : Int) (questions : List Question) (m : String) (q : Question)
    (hfc : ∀ m3 q3, (fc m3 q3).forecaster = m3 ∧ (fc m3 q3).question_id = q3.id
      ∧ (fc m3 q3).source = q3.source) :
    ∀ ms : List String, m ∉ ms →
      rowsFor (dispatchRows fc setId now questions ms) m q = 0 := by
  intro ms
  induction ms with
  | nil => intro _; simp [dispatchRows, rowsFor]
  | cons m2 rest ih =>
    intro hnot
    rw [dispatchRows_cons, rowsFor_append,
      rowsFor_map_other fc setId now m2 m questions hfc
        (fun he => hnot (he ▸ List.mem_cons_self m2 rest)) q,
      ih (fun hmem => hnot (List.mem_cons_of_mem m2 hmem))]

theorem dispatchRows_reasoning (fc : String → Question → Forecast) (setId : Nat)
    (now : Int) (questions : List Question) (models : List String)
    (herr : ∀ m q, ∃ s, (fc m q).reasoning = some s ∧ pyStartsWith s "Error:" = true) :
    ∀ r ∈ dispatchRows fc setId now questions models,
      ∃ s, r.reasoning = some s ∧ pyStartsWith s "Error:" = true := by
  intro r hr
  rw [dispatchRows] at hr
  obtain ⟨m, _, hr2⟩ := List.mem_flatMap.mp hr
  obtain ⟨q, _, rfl⟩ := List.mem_map.mp hr2
  obtain ⟨s, hs, hp⟩ := herr m q
  exact ⟨s, by simpa [forecastToRow, rebuildWithSet] using hs, hp⟩

/-- Claim C4: one dispatch run appends exactly the forecast rows of the run
(one per (model, question) pair, in iteration order) to the existing storage;
persisting is append-only, so a repeated run appends the same rows again
rather than overwriting; with models and question keys distinct, every
(model, question) pair has exactly one appended row; and with a forecaster
whose every forecast reports an internal error, every appended row's reasoning
starts with `"Error:"` and every model's success counter is 0 — the prefix
being the sole discriminator used by the loop. -/
theorem run_forecasts_dispatch_contract (fc : String → Question → Forecast)
    (setId : Nat) (now : Int) (storage : List ForecastRow)
    (questions : List Question) (models : List String)
    (hfc : ∀ m q, (fc m q).forecaster = m ∧ (fc m q).question_id = q.id
      ∧ (fc m q).source = q.source) :
    (runForecasts fc setId now questions models storage).1
        = storage ++ dispatchRows fc setId now questions models
    ∧ (runForecasts fc setId now questions models
          (runForecasts fc setId now questions models storage).1).1
        = storage ++ dispatchRows fc setId now questions models
            ++ dispatchRows fc setId now questions models
    ∧ (models.Nodup → (questions.map questionKey).Nodup →
        ∀ m ∈ models, ∀ q ∈ questions,
          rowsFor (dispatchRows fc setId now questions models) m q = 1)
    ∧ ((∀ m q, ∃ s, (fc m q).reasoning = some s ∧ pyStartsWith s "Error:" = true) →
        (∀ r ∈ dispatchRows fc setId now questions models,
            ∃ s, r.reasoning = some s ∧ pyStartsWith s "Error:" = true)
        ∧ ∀ p ∈ (runForecasts fc setId now questions models storage).2, p.2 = 0) := by
  refine ⟨runForecasts_storage fc setId now questions models storage, ?_, ?_, ?_⟩
  · rw [runForecasts_storage, runForecasts_storage]
  · intro hmnd hqnd m hm q hq
    induction models with
    | nil => cases hm
    | cons m2 rest ih =>
      have hnd2 : m2 ∉ rest ∧ rest.Nodup := by simpa using hmnd
      rw [dispatchRows_cons, rowsFor_append]
      rcases List.mem_cons.mp hm with rfl | hmr
      · rw [rowsFor_map_self fc setId now m questions hfc hqnd q hq,
          rowsFor_dispatch_notin fc setId now questions m q hfc rest hnd2.1]
      · have hne : m2 ≠ m := fun he => hnd2.1 (he ▸ hmr)
        rw [rowsFor_map_other fc setId now m2 m questions hfc hne q,
          ih hnd2.2 hmr]
  · intro herr
    refine ⟨dispatchRows_reasoning fc setId now questions models herr, ?_⟩
    refine runForecasts_results_zero fc setId now questions models ?_ storage
    intro m q
    obtain ⟨s, hs, hp⟩ := herr m q
    exact isErrorForecast_of_reasoning hs hp

/-- Witness for C4: the always-erroring forecaster on one model and one binary
question. -/
theorem run_forecasts_dispatch_contract_witness :
    (runForecasts errFc 1 0 [qBin] ["m1"] []).1 = dispatchRows errFc 1 0 [qBin] ["m1"]
    ∧ rowsFor (dispatchRows errFc 1 0 [qBin] ["m1"]) "m1" qBin = 1
    ∧ (∀ p ∈ (runForecasts errFc 1 0 [qBin] ["m1"] []).2, p.2 = 0) :=
  have h := run_forecasts_dispatch_contract errFc 1 0 [] [qBin] ["m1"]
    (fun m q => ⟨rfl, rfl, rfl⟩)
  ⟨h.1, h.2.2.1 (by decide) (by decide) "m1" (by decide) qBin (by decide),
    (h.2.2.2 (fun m q => ⟨"Error: boom", rfl, by decide⟩)).2⟩

end ForecastBench
